import Mathlib

/-!
# Verification of the node-steamcommunity session/authentication core (src/index.js)

This file gives a shallow embedding in Lean 4 of the session and authentication
subsystem of the `node-steamcommunity` client library (`src/index.js`):

* the cookie jar model and the replicated-write helper `_setCookie`
  (lines 281-288);
* `setCookies` (lines 290-299), which imports `name=value` cookie strings,
  harvests the SteamID out of `steamLogin`/`steamLoginSecure` cookies and
  decides the secure flag from the cookie name;
* `getSessionID` (lines 301-317) together with `generateSessionID`;
* the login flow `SteamCommunity.prototype.login` (lines 59-214): precondition
  check, pre-request state changes, the RSA-key step, the `dologin` form, and
  the priority classification of the `dologin` response;
* `getClientLogonToken` (lines 251-279) with the session-expiry notification;
* the profile-URL resolver `_myProfile` (lines 487-526) with its
  timer-based 60-second cache.

JavaScript strings are Lean `String`s, JS booleans are `Bool`, absent / `null`
JS values are `Option`, and a JS `TypeError` crash is an explicit `none` /
`crash` outcome.  External collaborators (the HTTP transport, the RSA library
`node-bignumber`, `crypto.randomBytes`) enter as explicit parameters: a
response body is an argument, the encrypted password is an argument, and the
random bytes feeding `generateSessionID` are an argument.
-/

set_option autoImplicit false

namespace SteamWeb

/-! ## Generic character-list helpers (JS regex / string primitives) -/

/-- `listHasPrefix l p` is true when `p` is an initial segment of `l`. -/
def listHasPrefix : List Char → List Char → Bool
  | _, [] => true
  | [], _ :: _ => false
  | a :: as, b :: bs => a == b && listHasPrefix as bs

/-- `listHasSub l p`: `p` occurs as a contiguous segment of `l`.  This models
an unanchored JS regex match for a literal pattern, e.g.
`message.match(/Please verify your humanity/)`. -/
def listHasSub : List Char → List Char → Bool
  | [], p => p.isEmpty
  | l@(_ :: rest), p => listHasPrefix l p || listHasSub rest p

/-- String wrapper for `listHasSub`. -/
def strHasSub (s pat : String) : Bool :=
  listHasSub s.data pat.data

/-- A decimal digit, as in the JS regex class `\d` (code points 48-57). -/
def isDigitChar (c : Char) : Bool :=
  48 ≤ c.toNat && c.toNat ≤ 57

/-- Split a string at its first `=` sign: `splitFirstEq "a=b=c" = some ("a", "b=c")`.
This is how `request`'s `Cookie.parse` separates a cookie's name from its
value, and how the regex `([^=]+)=(.+)` captures (for pieces whose name part
is nonempty). Returns `none` when the string has no `=`. -/
def splitFirstEq (s : String) : Option (String × String) :=
  let name := s.data.takeWhile (fun c => !(c == '='))
  match s.data.dropWhile (fun c => !(c == '=')) with
  | '=' :: v => some (⟨name⟩, ⟨v⟩)
  | _ => none

/-- The capture of the greedy JS regex `/(.+)=/` used by `setCookies` to read
the cookie name: everything before the *last* `=` that has at least one
character in front of it; `none` when the regex does not match (which makes
the JS code throw). -/
def cookieNameOf (s : String) : Option String :=
  match s.data.reverse.dropWhile (fun c => !(c == '=')) with
  | '=' :: c :: nameRev => some ⟨(c :: nameRev).reverse⟩
  | _ => none

/-- The capture of the JS regex `/=(\d+)/`: the first maximal run of decimal
digits immediately following an `=`; `none` when no `=` is followed by a
digit (which makes the JS code throw). -/
def firstEqDigits : List Char → Option String
  | [] => none
  | c :: rest =>
    if c == '=' then
      let ds := rest.takeWhile isDigitChar
      if ds.isEmpty then firstEqDigits rest else some ⟨ds⟩
    else firstEqDigits rest

/-! ## Percent encoding/decoding (models of JS `encodeURIComponent` /
`decodeURIComponent`, restricted to single-byte escapes, which covers every
value the library passes through them) -/

/-- Hex digit value of a character, `none` if not a hex digit (working on
code points: digits 48-57, lower-case 97-102, upper-case 65-70). -/
def hexVal (c : Char) : Option Nat :=
  let n := c.toNat
  if 48 ≤ n && n ≤ 57 then some (n - 48)
  else if 97 ≤ n && n ≤ 102 then some (n - 87)
  else if 65 ≤ n && n ≤ 70 then some (n - 55)
  else none

/-- Lower-case hex digit for a value `< 16` (as produced by
`Buffer.toString('hex')`): `48 + n` hits the digit block, `87 + n` the
lower-case letter block. -/
def hexDigit (n : Nat) : Char :=
  Char.ofNat (if n < 10 then 48 + n else 87 + n)

/-- `decodeURIComponent`, modelled for single-byte `%XX` escapes; a `%` not
followed by two hex digits is kept literally. -/
def percentDecodeAux : List Char → List Char
  | [] => []
  | c :: rest =>
    if c == '%' then
      match rest with
      | h₁ :: h₂ :: rest' =>
        match hexVal h₁, hexVal h₂ with
        | some v₁, some v₂ => Char.ofNat (16 * v₁ + v₂) :: percentDecodeAux rest'
        | _, _ => c :: percentDecodeAux (h₁ :: h₂ :: rest')
      | [h₁] => [c, h₁]
      | [] => [c]
    else c :: percentDecodeAux rest

/-- String wrapper for `percentDecodeAux`. -/
def decodeURIComponent (s : String) : String :=
  ⟨percentDecodeAux s.data⟩

/-- The characters `encodeURIComponent` leaves unescaped. -/
def uriUnreserved (c : Char) : Bool :=
  ('A' ≤ c && c ≤ 'Z') || ('a' ≤ c && c ≤ 'z') || ('0' ≤ c && c ≤ '9') ||
    c == '-' || c == '_' || c == '.' || c == '!' || c == '~' || c == '*' ||
    c == '\x27' || c == '(' || c == ')'

/-- Upper-case hex digit, as produced by `encodeURIComponent`. -/
def hexDigitUpper (n : Nat) : Char :=
  Char.ofNat (if n < 10 then 48 + n else 55 + n)

/-- `encodeURIComponent`, modelled for ASCII code points. -/
def percentEncodeAux : List Char → List Char
  | [] => []
  | c :: rest =>
    if uriUnreserved c then c :: percentEncodeAux rest
    else '%' :: hexDigitUpper (c.toNat / 16 % 16) :: hexDigitUpper (c.toNat % 16)
      :: percentEncodeAux rest

/-- String wrapper for `percentEncodeAux`. -/
def encodeURIComponent (s : String) : String :=
  ⟨percentEncodeAux s.data⟩

/-! ## Hex rendering of random bytes (`Buffer.toString('hex')`) -/

/-- One byte rendered as two lower-case hex characters. -/
def byteToHex (b : Nat) : List Char :=
  [hexDigit (b / 16 % 16), hexDigit (b % 16)]

/-- `Buffer.from(bytes).toString('hex')`. -/
def bytesToHex (bs : List Nat) : String :=
  ⟨(bs.map byteToHex).flatten⟩

/-- `generateSessionID` (src/index.js lines 315-317):
`require('crypto').randomBytes(12).toString('hex')`.  The 12 random bytes are
an explicit argument. -/
def generateSessionID (randomBytes : List Nat) : String :=
  bytesToHex randomBytes

/-! ## Cookie jar model

The library uses a `request` (tough-cookie) jar.  A stored cookie is keyed by
`(domain, name)`; storing a cookie for a domain replaces the previous cookie
of the same name on that domain.  Each entry remembers the scheme of the URL
it was set under.  On retrieval, a cookie flagged `secure` is visible only to
`https` hosts; cookies with an expiry in the past are invisible (the login
flow deletes its mobile cookies by re-setting them with `expires = Date(0)`).
-/

/-- The URL scheme part of a jar operation. -/
inductive Scheme where
  | http
  | https
  deriving DecidableEq, Repr

/-- A parsed cookie (`request.cookie(...)`): name, value, the `secure`
attribute and whether it has been expired (set with a past `expires`). -/
structure Cookie where
  name : String
  value : String
  secure : Bool := false
  expired : Bool := false
  deriving DecidableEq, Repr

/-- One stored jar entry: the cookie plus the scheme and host of the URL it
was written under. -/
structure JarEntry where
  scheme : Scheme
  domain : String
  cookie : Cookie
  deriving DecidableEq, Repr

/-- The cookie jar: most recently written entries first. -/
abbrev Jar := List JarEntry

/-- `jar.setCookie(cookie, scheme + "://" + domain)`: replace any previous
cookie of the same name stored for that domain. -/
def jarSet (j : Jar) (c : Cookie) (sch : Scheme) (domain : String) : Jar :=
  ⟨sch, domain, c⟩ ::
    j.filter (fun e => !(e.domain == domain && e.cookie.name == c.name))

/-- `request.cookie(str)`: parse a `name=value` string (split at the first
`=`) into a cookie with default attributes; `none` when there is no `=`
(where the JS code would go on to crash). -/
def parseCookie (s : String) : Option Cookie :=
  match splitFirstEq s with
  | some (n, v) => some { name := n, value := v }
  | none => none

/-- The three collaborating domains of `_setCookie`
(src/index.js lines 285-287), in the order they are written. -/
def cookieDomains : List String :=
  ["steamcommunity.com", "store.steampowered.com", "help.steampowered.com"]

/-- `SteamCommunity.prototype._setCookie(cookie, secure)`
(src/index.js lines 281-288): pick `https` iff `secure`, force the cookie's
`secure` attribute, and store a clone under each of the three collaborating
domains. -/
def _setCookie (j : Jar) (c : Cookie) (secure : Bool) : Jar :=
  let sch := if secure then Scheme.https else Scheme.http
  let c := { c with secure := secure }
  jarSet (jarSet (jarSet j c sch "steamcommunity.com") c sch
    "store.steampowered.com") c sch "help.steampowered.com"

/-- The entries of the jar a `getCookieString(sch://domain)` call can see:
domain must match, secure cookies are only sent over https, expired cookies
are gone. -/
def visibleEntries (j : Jar) (sch : Scheme) (domain : String) : List JarEntry :=
  j.filter (fun e =>
    e.domain == domain && !e.cookie.expired &&
      (!e.cookie.secure || sch == Scheme.https))

/-- The `name=value` rendering of one stored cookie. -/
def entryPiece (e : JarEntry) : String :=
  e.cookie.name ++ "=" ++ e.cookie.value

/-- The list of trimmed `name=value` pieces produced by
`jar.getCookieString(host).split(';').map(trim)`.  When nothing is visible,
`getCookieString` returns `""` and `split` still yields one (empty) piece.
Faithful for jars whose visible names and values contain no `;` (the only
kind this library creates). -/
def cookiePieces (j : Jar) (sch : Scheme) (domain : String) : List String :=
  let vis := visibleEntries j sch domain
  if vis.isEmpty then [""]
  else vis.map entryPiece

/-! ## `setCookies` (src/index.js lines 290-299) -/

/-- Client-instance state shared by the jar-facing operations:
the jar itself and the fields `login`/`setCookies` assign
(`this.steamID` is modelled by the SteamID's decimal string). -/
structure ClientState where
  jar : Jar
  captchaGid : Int
  profileURL : Option String
  steamID : Option String
  oAuthToken : Option String
  deriving DecidableEq, Repr

/-- Is a cookie name written as secure?  `setCookies` marks a cookie secure
iff its (regex-extracted) name matches `/^steamMachineAuth/` or `/Secure$/`. -/
def secureCookieName (name : String) : Bool :=
  listHasPrefix name.data "steamMachineAuth".data ||
    listHasPrefix name.data.reverse "Secure".data.reverse

/-- One iteration of the `setCookies` loop (src/index.js lines 291-298) on a
single cookie string.  `none` models the JS `TypeError` thrown when
`cookie.match(/(.+)=/)` or `cookie.match(/=(\d+)/)` returns `null`. -/
def setCookiesOne (st : ClientState) (cookieStr : String) : Option ClientState :=
  match cookieNameOf cookieStr with
  | none => none
  | some cookieName =>
    let idStep : Option ClientState :=
      if cookieName == "steamLogin" || cookieName == "steamLoginSecure" then
        match firstEqDigits cookieStr.data with
        | none => none
        | some digits => some { st with steamID := some digits }
      else some st
    match idStep with
    | none => none
    | some st₁ =>
      match parseCookie cookieStr with
      | none => none
      | some c =>
        some { st₁ with jar := _setCookie st₁.jar c (secureCookieName cookieName) }

/-- `SteamCommunity.prototype.setCookies(cookies)`: fold the loop body over
the list of cookie strings. -/
def setCookies (st : ClientState) (cookies : List String) : Option ClientState :=
  match cookies with
  | [] => some st
  | c :: rest =>
    match setCookiesOne st c with
    | none => none
    | some st₁ => setCookies st₁ rest

/-! ## `getSessionID` (src/index.js lines 301-313) -/

/-- The match of the regex `([^=]+)=(.+)` against one trimmed cookie piece,
for pieces whose part before the first `=` is nonempty (every piece a
well-formed jar produces): name before the first `=`, value after it, both
required nonempty; `none` models the JS `TypeError` on `match[1]` when the
regex does not match. -/
def parsePiece (p : String) : Option (String × String) :=
  match splitFirstEq p with
  | some (n, v) => if n.isEmpty || v.isEmpty then none else some (n, v)
  | none => none

/-- The `for` loop of `getSessionID`: scan the pieces in order; a piece the
regex rejects throws (`Except.error`), a piece named `sessionid` returns its
raw value, otherwise keep scanning. -/
def findSessionid : List String → Except Unit (Option String)
  | [] => Except.ok none
  | p :: rest =>
    match parsePiece p with
    | none => Except.error ()
    | some (n, v) =>
      if n == "sessionid" then Except.ok (some v) else findSessionid rest

/-- `SteamCommunity.prototype.getSessionID(host)`: if a `sessionid` cookie is
visible for the host, return its URL-decoded value (jar untouched);
otherwise generate a fresh id from the given random bytes, install it through
`_setCookie` (non-secure) and return it.  `none` models the JS `TypeError`
when a visible piece fails the regex. -/
def getSessionID (st : ClientState) (sch : Scheme) (domain : String)
    (randomBytes : List Nat) : Option (String × ClientState) :=
  match findSessionid (cookiePieces st.jar sch domain) with
  | Except.error _ => none
  | Except.ok (some v) => some (decodeURIComponent v, st)
  | Except.ok none =>
    let sessionID := generateSessionID randomBytes
    some (sessionID,
      { st with jar := _setCookie st.jar { name := "sessionid", value := sessionID } false })

/-! ## The login flow (src/index.js lines 59-214) -/

/-- A JS value that may be absent (`undefined`) or empty; `falsyStr` is the
JS truthiness test the login code applies to its string-valued fields. -/
def falsyStr : Option String → Bool
  | none => true
  | some s => s.isEmpty

/-- The `details` object accepted by `login`. -/
structure LoginDetails where
  accountName : Option String
  password : Option String
  steamguard : Option String := none
  captcha : Option String := none
  authCode : Option String := none
  twoFactorCode : Option String := none
  disableMobile : Bool := false
  deriving Repr

/-- Body of the `getrsakey` response. -/
structure RsaKeyBody where
  publickey_mod : Option String
  publickey_exp : Option String
  timestamp : String
  deriving Repr

/-- A pre-parsed mobile OAuth payload (`JSON.parse(body.oauth)`). -/
structure OAuthData where
  steamid : String
  oauth_token : String
  deriving DecidableEq, Repr

/-- Body of the `dologin` response.  `message` is `none` when the field is
absent (in which case `body.message.match(...)` would throw), and `oauth`
carries the parsed payload, `none` when the field is absent or empty. -/
structure DologinBody where
  success : Bool
  emailauth_needed : Bool := false
  requires_twofactor : Bool := false
  captcha_needed : Bool := false
  message : Option String := none
  emaildomain : String := ""
  captcha_gid : Int := 0
  oauth : Option OAuthData := none
  deriving Repr

/-- The outcome `login` delivers through its callback for a `dologin`
response (src/index.js lines 154-211), plus the transport-error and
invalid-RSA-key outcomes of the earlier steps and the `jsError` crash. -/
inductive LoginOutcome where
  | steamGuard (emaildomain : String)
  | steamGuardMobile
  | captcha (captchaurl : String)
  | rejected (message : String)
  | malformed
  | succeeded
  | transportError
  | invalidRsa
  | jsError
  deriving DecidableEq, Repr

/-- The CAPTCHA render URL built at src/index.js line 166. -/
def captchaRenderURL (gid : Int) : String :=
  "https://steamcommunity.com/login/rendercaptcha/?gid=" ++ toString gid

/-- `body.message || 'Unknown error'` (line 172). -/
def messageOrUnknown : Option String → String
  | none => "Unknown error"
  | some m => if m.isEmpty then "Unknown error" else m

/-- The classification chain of the `dologin` callback
(src/index.js lines 154-175), in source order:

1. `!success && emailauth_needed` — email Steam Guard;
2. `!success && requires_twofactor` — mobile Steam Guard;
3. `!success && captcha_needed && message.match(/Please verify your humanity/)`
   — CAPTCHA (evaluating `message.match` crashes when `message` is absent);
4. `!success` — rejected with `message || 'Unknown error'`;
5. `success && !disableMobile && !oauth` — malformed response;
6. otherwise — success. -/
def classifyDologin (disableMobile : Bool) (b : DologinBody) : LoginOutcome :=
  if !b.success && b.emailauth_needed then .steamGuard b.emaildomain
  else if !b.success && b.requires_twofactor then .steamGuardMobile
  else if !b.success && b.captcha_needed && b.message.isNone then .jsError
  else if !b.success && b.captcha_needed &&
      strHasSub (b.message.getD "") "Please verify your humanity" then
    .captcha (captchaRenderURL b.captcha_gid)
  else if !b.success then .rejected (messageOrUnknown b.message)
  else if !disableMobile && b.oauth.isNone then .malformed
  else .succeeded

/-- The assignment `this._captchaGid = body.captcha_gid` performed inside the
CAPTCHA branch (line 168) and nowhere else. -/
def updateCaptchaGid (gid : Int) (disableMobile : Bool) (b : DologinBody) : Int :=
  match classifyDologin disableMobile b with
  | .captcha _ => b.captcha_gid
  | _ => gid

/-- The `dologin` form (src/index.js lines 121-139) as a field-name/value
list.  `encryptedPassword` stands for
`hex2b64(key.encrypt(details.password))` (external `node-bignumber`), and
`nowMs` for `Date.now()`. -/
def buildDologinForm (captchaGid : Int) (d : LoginDetails)
    (rsaTimestamp : String) (encryptedPassword : String) (nowMs : Nat) :
    List (String × String) :=
  let base : List (String × String) :=
    [("captcha_text", (d.captcha.getD "")),
     ("captchagid", toString captchaGid),
     ("emailauth", (d.authCode.getD "")),
     ("emailsteamid", ""),
     ("password", encryptedPassword),
     ("remember_login", "true"),
     ("rsatimestamp", rsaTimestamp),
     ("twofactorcode", (d.twoFactorCode.getD "")),
     ("username", (d.accountName.getD "")),
     ("loginfriendlyname", ""),
     ("donotcache", toString nowMs)]
  if !d.disableMobile then
    (base.map (fun p =>
      if p.1 == "loginfriendlyname" then (p.1, "#login_emailauth_friendlyname_mobile")
      else p)) ++
    [("oauth_client_id", "DE45CD61"),
     ("oauth_scope", "read_profile write_profile read_client write_client")]
  else base

/-- An HTTP request about to be issued (method, URI, form fields). -/
structure HttpRequest where
  method : String
  uri : String
  form : List (String × String)
  deriving Repr

/-- `s.split(sep)[0]` in JS. -/
def jsSplitHead (s sep : String) : String :=
  (s.splitOn sep).getD 0 s

/-- `s.split(sep)[1]` in JS; an absent element is `undefined`, which the
string operations the library applies to it coerce to `"undefined"`. -/
def jsSplitSecond (s sep : String) : String :=
  (s.splitOn sep).getD 1 "undefined"

/-- `deleteMobileCookies` (src/index.js lines 90-98): re-set the two mobile
cookies with an expiry of `Date(0)`, which removes them from every
`getCookieString` result. -/
def deleteMobileCookies (j : Jar) : Jar :=
  _setCookie
    (_setCookie j { name := "mobileClientVersion", value := "", expired := true } false)
    { name := "mobileClient", value := "", expired := true } false

/-- Result of the part of `login` that runs before any network request. -/
inductive LoginPreResult where
  | thrown (msg : String)
  | request (st : ClientState) (req : HttpRequest)
  deriving Repr

/-- The pre-network part of `SteamCommunity.prototype.login`
(src/index.js lines 59-103), in source order: the precondition check (throw,
lines 60-62), the machine-auth cookie from `details.steamguard`
(lines 64-67), `delete this._profileURL` (line 72), the two mobile cookies
when mobile login is enabled (lines 84-85), and finally the `getrsakey`
request (lines 100-103). -/
def loginPre (st : ClientState) (d : LoginDetails) : LoginPreResult :=
  if falsyStr d.accountName || falsyStr d.password then
    .thrown "Missing either accountName or password to login; both are needed"
  else
    let st₁ :=
      if !falsyStr d.steamguard then
        let sg := d.steamguard.getD ""
        let sgCookie : Cookie :=
          { name := "steamMachineAuth" ++ jsSplitHead sg "||",
            value := encodeURIComponent (jsSplitSecond sg "||") }
        { st with jar := _setCookie st.jar sgCookie true }
      else st
    let st₂ := { st₁ with profileURL := none }
    let st₃ :=
      if !d.disableMobile then
        let vJar := _setCookie st₂.jar { name := "mobileClientVersion", value := "0 (2.1.3)" } false
        { st₂ with jar := _setCookie vJar { name := "mobileClient", value := "android" } false }
      else st₂
    .request st₃
      { method := "POST", uri := "https://steamcommunity.com/login/getrsakey/",
        form := [("username", d.accountName.getD "")] }

/-- What a whole `login` call delivers: a thrown precondition error, an error
(or challenge) through the callback, a success through the callback, or a JS
crash; every callback outcome carries the final client state. -/
inductive LoginResult where
  | thrown (msg : String)
  | cbError (e : LoginOutcome) (st : ClientState)
  | cbSuccess (sessionID : String) (cookies : List String) (steamguard : Option String)
      (oauthToken : Option String) (st : ClientState)
  | crashed (st : ClientState)
  deriving Repr

/-- The success branch of the `dologin` callback (src/index.js
lines 175-210): install a fresh `sessionid` cookie, read back the cookie
string for `https://steamcommunity.com`, derive the identity (OAuth payload
in mobile mode, the `steamLogin` cookie otherwise), look for the matching
machine-auth cookie, and re-import all cookies through `setCookies`. -/
def loginSuccess (st : ClientState) (d : LoginDetails) (b : DologinBody)
    (randomBytes : List Nat) : LoginResult :=
  let sessionID := generateSessionID randomBytes
  let jar₁ := _setCookie st.jar { name := "sessionid", value := sessionID } false
  let cookies := cookiePieces jar₁ Scheme.https "steamcommunity.com"
  let st₁ : ClientState :=
    if !d.disableMobile then
      match b.oauth with
      | some o =>
        { st with jar := jar₁, steamID := some o.steamid, oAuthToken := some o.oauth_token }
      | none => { st with jar := jar₁ }
    else
      let idCookie := cookies.find? (fun c => jsSplitHead c "=" == "steamLogin")
      let sid :=
        match idCookie with
        | some c => some (jsSplitHead (decodeURIComponent (jsSplitSecond c "=")) "||")
        | none => st.steamID
      { st with jar := jar₁, steamID := sid, oAuthToken := none }
  let idStr := st₁.steamID.getD "undefined"
  let steamguard :=
    match cookies.find? (fun c => jsSplitHead c "=" == "steamMachineAuth" ++ idStr) with
    | some c => some (idStr ++ "||" ++ decodeURIComponent (jsSplitSecond c "="))
    | none => none
  match setCookies st₁ cookies with
  | none => .crashed st₁
  | some st₂ =>
    .cbSuccess sessionID cookies steamguard
      (if d.disableMobile then none else st₂.oAuthToken) st₂

/-- A whole `login` call (src/index.js lines 59-214) as a function of the two
response bodies (`none` = transport error), the externally computed encrypted
password, `Date.now()` and the random bytes for the session id.  The mobile
cookies are deleted on every `getrsakey` failure and at the top of the
`dologin` callback, exactly as in the source. -/
def loginRun (st : ClientState) (d : LoginDetails) (rsaResp : Option RsaKeyBody)
    (dologinResp : Option DologinBody) (encryptedPassword : String) (nowMs : Nat)
    (randomBytes : List Nat) : LoginResult :=
  match loginPre st d with
  | .thrown m => .thrown m
  | .request st₁ _ =>
    match rsaResp with
    | none => .cbError .transportError { st₁ with jar := deleteMobileCookies st₁.jar }
    | some rsa =>
      if falsyStr rsa.publickey_mod || falsyStr rsa.publickey_exp then
        .cbError .invalidRsa { st₁ with jar := deleteMobileCookies st₁.jar }
      else
        let _form := buildDologinForm st₁.captchaGid d rsa.timestamp encryptedPassword nowMs
        let st₂ := { st₁ with jar := deleteMobileCookies st₁.jar }
        match dologinResp with
        | none => .cbError .transportError st₂
        | some b =>
          match classifyDologin d.disableMobile b with
          | .jsError => .crashed st₂
          | .steamGuard dom => .cbError (.steamGuard dom) st₂
          | .steamGuardMobile => .cbError .steamGuardMobile st₂
          | .captcha url =>
            .cbError (.captcha url) { st₂ with captchaGid := b.captcha_gid }
          | .rejected m => .cbError (.rejected m) st₂
          | .malformed => .cbError .malformed st₂
          | _ => loginSuccess st₂ d b randomBytes

/-- The client state every callback-reaching `login` outcome carries. -/
def LoginResult.finalState? : LoginResult → Option ClientState
  | .thrown _ => none
  | .cbError _ st => some st
  | .cbSuccess _ _ _ _ st => some st
  | .crashed st => some st

/-- The constructor `SteamCommunity(options)` (src/index.js lines 22-57):
empty jar plus the two bootstrap cookies, CAPTCHA gid sentinel `-1`, and no
cached profile URL / identity / OAuth token. -/
def SteamCommunityInit : ClientState :=
  { jar := _setCookie
      (_setCookie [] { name := "Steam_Language", value := "english" } false)
      { name := "timezoneOffset", value := "0,0" } false,
    captchaGid := -1,
    profileURL := none,
    steamID := none,
    oAuthToken := none }

/-! ## `getClientLogonToken` (src/index.js lines 251-279) and the
session-expiry notification -/

/-- An event emitted on the client's event channel. -/
inductive SteamEvent where
  | sessionExpired (errMessage : String)
  deriving DecidableEq, Repr

/-- Modelled from the spec: `this._notifySessionExpired(err)` lives in the
`components/http.js` collaborator, which is not part of the analysed source;
§4.5 of the spec requires it to emit a session-expired event carrying the
error, exactly once per detection. -/
def notifySessionExpired (errMessage : String) : List SteamEvent :=
  [SteamEvent.sessionExpired errMessage]

/-- Body of the `clientjstoken` response. -/
structure ClientJsTokenBody where
  logged_in : Bool
  steamid : Option String := none
  account_name : Option String := none
  token : Option String := none
  deriving Repr

/-- What `getClientLogonToken` hands to its callback. -/
inductive TokenResult where
  | err (message : String)
  | ok (steamID accountName webLogonToken : String)
  deriving DecidableEq, Repr

/-- `SteamCommunity.prototype.getClientLogonToken` (src/index.js
lines 251-279) as a function of the transport error, status code and body;
returns the callback outcome together with the events emitted while handling
the response. -/
def getClientLogonToken (transportErr : Option String) (statusCode : Nat)
    (body : ClientJsTokenBody) : TokenResult × List SteamEvent :=
  match transportErr with
  | some e => (.err e, [])
  | none =>
    if statusCode ≠ 200 then (.err ("HTTP error " ++ toString statusCode), [])
    else if !body.logged_in then
      (.err "Not Logged In", notifySessionExpired "Not Logged In")
    else if falsyStr body.steamid || falsyStr body.account_name || falsyStr body.token then
      (.err "Malformed response", [])
    else
      (.ok (body.steamid.getD "") (body.account_name.getD "") (body.token.getD ""), [])

/-! ## The profile-URL resolver `_myProfile` (src/index.js lines 487-526)

`_myProfile` keeps `this._profileURL` as a cache, evicted by a
`setTimeout(..., 60000)` scheduled at each fresh resolution.  The model keeps
the cache and the multiset of pending timer fire times; time advances at
each operation, firing every timer that is due (each fire executes
`delete this._profileURL`).  The timers are *not* cancelled by anything in
the source — `login` merely executes `delete this._profileURL`. -/

/-- Resolver state: the cached path and the pending timer fire times
(absolute milliseconds). -/
structure ResolverState where
  cache : Option String
  timers : List Nat
  deriving DecidableEq, Repr

/-- Advance time to `now`: every pending timer with fire time `≤ now` fires
(executing `delete this._profileURL`) and is removed. -/
def fireTimers (st : ResolverState) (now : Nat) : ResolverState :=
  { cache := if st.timers.any (fun tf => tf ≤ now) then none else st.cache,
    timers := st.timers.filter (fun tf => now < tf) }

/-- The capture of `location.match(/steamcommunity\.com(\/(id|profiles)\/[^/]+)\/?/)`:
scan for `steamcommunity.com` followed by `/id/` or `/profiles/` and at least
one non-`/` character; group 1 is `/id/<segment>` resp. `/profiles/<segment>`. -/
def profilePathHere (l : List Char) : Option String :=
  if listHasPrefix l "steamcommunity.com/id/".data then
    let seg := (l.drop "steamcommunity.com/id/".length).takeWhile (fun c => !(c == '/'))
    if seg.isEmpty then none else some ("/id/" ++ ⟨seg⟩)
  else if listHasPrefix l "steamcommunity.com/profiles/".data then
    let seg := (l.drop "steamcommunity.com/profiles/".length).takeWhile (fun c => !(c == '/'))
    if seg.isEmpty then none else some ("/profiles/" ++ ⟨seg⟩)
  else none

/-- Unanchored scan for `profilePathHere` over the whole header. -/
def profilePathScan : List Char → Option String
  | [] => none
  | l@(_ :: rest) =>
    match profilePathHere l with
    | some p => some p
    | none => profilePathScan rest

/-- Group 1 of the profile-URL regex applied to a `Location` header. -/
def profilePathMatch (location : String) : Option String :=
  profilePathScan location.data

/-- The response observed by the `GET /my` probe: a transport error, or a
status code with the `Location` header. -/
inductive MyResponse where
  | transportFail
  | ok (statusCode : Nat) (location : String)
  deriving Repr

/-- What `_myProfile` does about the profile URL: either complete the
profile-scoped request against a path (cached or freshly resolved), or
report an error.  `errored` carries the exact argument passed to the
callback (`'HTTP error ' + statusCode`, a string, or the message of the
`Error`). -/
inductive ResolveResult where
  | usedCached (path : String)
  | resolved (path : String)
  | errored (message : String)
  | transportErrored
  deriving DecidableEq, Repr

/-- One `_myProfile` call at absolute time `now` (src/index.js
lines 503-525): due timers fire first; with a cache hit the request is
completed against the cached path and **no** `/my` request is issued;
otherwise one `/my` request is issued and the response classified — non-302
gives `'HTTP error <status>'`, an unmatchable `Location` gives
`Can't get profile URL`, and a match populates the cache and schedules an
eviction timer at `now + 60000`.  The third component is the number of `/my`
requests issued. -/
def myProfileCall (st : ResolverState) (now : Nat) (resp : MyResponse) :
    ResolveResult × ResolverState × Nat :=
  let st₁ := fireTimers st now
  match st₁.cache with
  | some p => (.usedCached p, st₁, 0)
  | none =>
    match resp with
    | .transportFail => (.transportErrored, st₁, 1)
    | .ok status location =>
      if status ≠ 302 then (.errored ("HTTP error " ++ toString status), st₁, 1)
      else
        match profilePathMatch location with
        | none => (.errored "Can\x27t get profile URL", st₁, 1)
        | some p =>
          (.resolved p, { cache := some p, timers := st₁.timers ++ [now + 60000] }, 1)

/-- The `delete this._profileURL` performed at the start of every `login`
call (src/index.js lines 71-72), seen from the resolver: due timers fire,
the cache is cleared, and the pending timers are left untouched. -/
def loginInvalidate (st : ResolverState) (now : Nat) : ResolverState :=
  let st₁ := fireTimers st now
  { st₁ with cache := none }

/-! ## Helper lemmas -/

theorem takeWhile_append_of_all {α : Type} {p : α → Bool} (xs ys : List α)
    (h : ∀ x ∈ xs, p x = true) :
    (xs ++ ys).takeWhile p = xs ++ ys.takeWhile p := by
  induction xs with
  | nil => simp
  | cons a l ih =>
    have ha := h a (by simp)
    simp only [List.cons_append, List.takeWhile_cons, ha, if_true]
    rw [ih (fun x hx => h x (by simp [hx]))]

theorem dropWhile_append_of_all {α : Type} {p : α → Bool} (xs ys : List α)
    (h : ∀ x ∈ xs, p x = true) :
    (xs ++ ys).dropWhile p = ys.dropWhile p := by
  induction xs with
  | nil => simp
  | cons a l ih =>
    have ha := h a (by simp)
    simp only [List.cons_append, List.dropWhile_cons, ha, if_true]
    exact ih (fun x hx => h x (by simp [hx]))

theorem takeWhile_of_all {α : Type} {p : α → Bool} (xs : List α)
    (h : ∀ x ∈ xs, p x = true) : xs.takeWhile p = xs := by
  induction xs with
  | nil => simp
  | cons a l ih =>
    simp only [List.takeWhile_cons, h a (by simp), if_true]
    rw [ih (fun x hx => h x (by simp [hx]))]

theorem listHasPrefix_iff (p l : List Char) :
    listHasPrefix l p = true ↔ ∃ r, l = p ++ r := by
  induction p generalizing l with
  | nil => simp [listHasPrefix]
  | cons b bs ih =>
    cases l with
    | nil => simp [listHasPrefix]
    | cons a as =>
      simp only [listHasPrefix, Bool.and_eq_true, beq_iff_eq, ih as]
      constructor
      · rintro ⟨rfl, r, rfl⟩
        exact ⟨r, rfl⟩
      · rintro ⟨r, h⟩
        cases h
        exact ⟨rfl, r, rfl⟩

theorem listHasSub_iff (l p : List Char) :
    listHasSub l p = true ↔ ∃ pre post, l = pre ++ p ++ post := by
  induction l with
  | nil =>
    simp only [listHasSub, List.isEmpty_iff]
    constructor
    · rintro rfl
      exact ⟨[], [], rfl⟩
    · rintro ⟨pre, post, h⟩
      rcases pre <;> rcases p <;> simp_all
  | cons a as ih =>
    simp only [listHasSub, Bool.or_eq_true, listHasPrefix_iff, ih]
    constructor
    · rintro (⟨r, h⟩ | ⟨pre, post, h⟩)
      · exact ⟨[], r, by simpa using h⟩
      · exact ⟨a :: pre, post, by simp [h]⟩
    · rintro ⟨pre, post, h⟩
      cases pre with
      | nil => exact Or.inl ⟨post, by simpa using h⟩
      | cons x xs =>
        simp only [List.cons_append, List.cons.injEq] at h
        exact Or.inr ⟨xs, post, h.2⟩

theorem string_mk_data (s : String) : (⟨s.data⟩ : String) = s := rfl

theorem string_append_data (a b : String) : (a ++ b).data = a.data ++ b.data := rfl

theorem cookieStr_data (name value : String) :
    (name ++ "=" ++ value).data = name.data ++ '=' :: value.data := by
  show (name.data ++ "=".data) ++ value.data = name.data ++ '=' :: value.data
  simp

theorem splitFirstEq_append (name value : String) (h : '=' ∉ name.data) :
    splitFirstEq (name ++ "=" ++ value) = some (name, value) := by
  have hall : ∀ x ∈ name.data, (!(x == '=')) = true := by
    intro x hx
    simp only [Bool.not_eq_true', beq_eq_false_iff_ne]
    exact fun he => h (he ▸ hx)
  unfold splitFirstEq
  rw [cookieStr_data, takeWhile_append_of_all _ _ hall, dropWhile_append_of_all _ _ hall]
  simp [string_mk_data]

theorem cookieNameOf_append (name value : String) (hn : '=' ∉ name.data)
    (hv : '=' ∉ value.data) (h0 : name ≠ "") :
    cookieNameOf (name ++ "=" ++ value) = some name := by
  have hall : ∀ x ∈ value.data.reverse, (!(x == '=')) = true := by
    intro x hx
    simp only [Bool.not_eq_true', beq_eq_false_iff_ne]
    exact fun he => hv (he ▸ (List.mem_reverse.mp hx))
  have hrev : (name ++ "=" ++ value).data.reverse =
      value.data.reverse ++ '=' :: name.data.reverse := by
    rw [cookieStr_data]
    simp
  unfold cookieNameOf
  rw [hrev, dropWhile_append_of_all _ _ hall]
  have hne : name.data ≠ [] := by
    intro hd
    apply h0
    cases name
    simp_all
  rcases hr : name.data.reverse with _ | ⟨c, nr⟩
  · exact absurd (by simpa using congrArg List.reverse hr) hne
  · simp only [List.dropWhile_cons, show ((!('=' == '=')) = false) by simp, Bool.false_eq_true,
      if_false]
    have : (c :: nr).reverse = name.data := by
      rw [← hr, List.reverse_reverse]
    simp [this, string_mk_data]

theorem firstEqDigits_skip (xs rest : List Char) (h : '=' ∉ xs) :
    firstEqDigits (xs ++ rest) = firstEqDigits rest := by
  induction xs with
  | nil => simp
  | cons a l ih =>
    have ha : (a == '=') = false := by
      simp only [beq_eq_false_iff_ne]
      exact fun he => h (by simp [he])
    rw [List.cons_append, firstEqDigits, ha]
    · exact ih (fun hm => h (by simp [hm]))

theorem firstEqDigits_cons_eq (rest : List Char) :
    firstEqDigits ('=' :: rest) =
      (if (rest.takeWhile isDigitChar).isEmpty then firstEqDigits rest
       else some ⟨rest.takeWhile isDigitChar⟩) := by
  simp [firstEqDigits]

theorem firstEqDigits_append (name digits rest : String) (hn : '=' ∉ name.data)
    (hd : ∀ c ∈ digits.data, isDigitChar c = true) (h0 : digits ≠ "") :
    firstEqDigits (name ++ "=" ++ (digits ++ "||" ++ rest)).data = some digits := by
  have hvd : (digits ++ "||" ++ rest).data = digits.data ++ '|' :: '|' :: rest.data := by
    show (digits.data ++ "||".data) ++ rest.data = _
    simp
  have htw : (digits ++ "||" ++ rest).data.takeWhile isDigitChar = digits.data := by
    rw [hvd, takeWhile_append_of_all _ _ hd]
    simp [List.takeWhile_cons, isDigitChar]
  have hne : digits.data ≠ [] := by
    intro hdd
    apply h0
    cases digits
    simp_all
  rw [cookieStr_data, firstEqDigits_skip _ _ hn, firstEqDigits_cons_eq, htw,
    if_neg (by simp [List.isEmpty_iff, hne])]

theorem secureCookieName_iff (n : String) :
    secureCookieName n = true ↔
      (∃ r : String, n = "steamMachineAuth" ++ r) ∨ (∃ p : String, n = p ++ "Secure") := by
  unfold secureCookieName
  simp only [Bool.or_eq_true, listHasPrefix_iff]
  constructor
  · rintro (⟨r, hr⟩ | ⟨r, hr⟩)
    · exact Or.inl ⟨⟨r⟩, String.ext hr⟩
    · refine Or.inr ⟨⟨r.reverse⟩, String.ext ?_⟩
      have := congrArg List.reverse hr
      simpa using this
  · rintro (⟨r, hr⟩ | ⟨p, hp⟩)
    · exact Or.inl ⟨r.data, congrArg String.data hr⟩
    · refine Or.inr ⟨p.data.reverse, ?_⟩
      have := congrArg (fun s => s.data.reverse) hp
      simpa using this

theorem percentDecode_of_no_percent (l : List Char) (h : '%' ∉ l) :
    percentDecodeAux l = l := by
  induction l with
  | nil => rfl
  | cons a rest ih =>
    have ha : (a == '%') = false := by
      simp only [beq_eq_false_iff_ne]
      exact fun he => h (by simp [he])
    rw [percentDecodeAux.eq_def]
    simp only [ha, Bool.false_eq_true, if_false, List.cons.injEq, true_and]
    exact ih (fun hm => h (by simp [hm]))

theorem hexDigit_hex : ∀ n < 16, (hexVal (hexDigit n)).isSome = true := by decide

theorem hexDigit_ne_percent : ∀ n < 16, hexDigit n ≠ '%' := by decide

theorem bytesToHex_length (bs : List Nat) : (bytesToHex bs).length = 2 * bs.length := by
  induction bs with
  | nil => rfl
  | cons b l ih =>
    show ((byteToHex b ++ (l.map byteToHex).flatten : List Char)).length = 2 * (l.length + 1)
    have : ((l.map byteToHex).flatten).length = 2 * l.length := ih
    simp [byteToHex, this]
    omega

theorem bytesToHex_mem (bs : List Nat) (ch : Char) (h : ch ∈ (bytesToHex bs).data) :
    ∃ n < 16, ch = hexDigit n := by
  induction bs with
  | nil => cases h
  | cons b l ih =>
    have h' : ch ∈ byteToHex b ++ (l.map byteToHex).flatten := h
    rcases List.mem_append.mp h' with hm | hm
    · simp only [byteToHex, List.mem_cons, List.not_mem_nil, or_false] at hm
      rcases hm with rfl | rfl
      · exact ⟨b / 16 % 16, Nat.mod_lt _ (by omega), rfl⟩
      · exact ⟨b % 16, Nat.mod_lt _ (by omega), rfl⟩
    · exact ih hm

theorem bytesToHex_chars_hex (bs : List Nat) :
    ∀ ch ∈ (bytesToHex bs).data, (hexVal ch).isSome = true := by
  intro ch h
  obtain ⟨n, hn, rfl⟩ := bytesToHex_mem bs ch h
  exact hexDigit_hex n hn

theorem bytesToHex_no_percent (bs : List Nat) : '%' ∉ (bytesToHex bs).data := by
  intro h
  obtain ⟨n, hn, hd⟩ := bytesToHex_mem bs '%' h
  exact hexDigit_ne_percent n hn hd.symm

theorem decode_bytesToHex (bs : List Nat) :
    decodeURIComponent (bytesToHex bs) = bytesToHex bs := by
  unfold decodeURIComponent
  rw [percentDecode_of_no_percent _ (bytesToHex_no_percent bs)]

theorem bytesToHex_ne_empty (bs : List Nat) (h : bs ≠ []) : bytesToHex bs ≠ "" := by
  intro he
  have := congrArg String.length he
  rw [bytesToHex_length] at this
  simp at this
  exact h this

/-! ### Normal form of a `_setCookie` write and the scheme/secure invariant -/

theorem dom_ne_cs : (("steamcommunity.com" : String) == "store.steampowered.com") = false := by
  decide

theorem dom_ne_ch : (("steamcommunity.com" : String) == "help.steampowered.com") = false := by
  decide

theorem dom_ne_sh : (("store.steampowered.com" : String) == "help.steampowered.com") = false := by
  decide

theorem dom_ne_sc : (("store.steampowered.com" : String) == "steamcommunity.com") = false := by
  decide

theorem dom_ne_hc : (("help.steampowered.com" : String) == "steamcommunity.com") = false := by
  decide

theorem dom_ne_hs : (("help.steampowered.com" : String) == "store.steampowered.com") = false := by
  decide

theorem setCookie_unfold (j : Jar) (c : Cookie) (s : Bool) :
    _setCookie j c s =
      JarEntry.mk (if s then Scheme.https else Scheme.http) "help.steampowered.com"
          { c with secure := s } ::
        JarEntry.mk (if s then Scheme.https else Scheme.http) "store.steampowered.com"
          { c with secure := s } ::
        JarEntry.mk (if s then Scheme.https else Scheme.http) "steamcommunity.com"
          { c with secure := s } ::
        ((j.filter (fun e => !(e.domain == "steamcommunity.com" && e.cookie.name == c.name))).filter
            (fun e => !(e.domain == "store.steampowered.com" && e.cookie.name == c.name))).filter
          (fun e => !(e.domain == "help.steampowered.com" && e.cookie.name == c.name)) := by
  unfold _setCookie jarSet
  simp only [List.filter_cons, dom_ne_cs, dom_ne_ch, dom_ne_sh, dom_ne_sc, dom_ne_hc, dom_ne_hs,
    Bool.false_and, Bool.not_false, if_true]

/-- The spec's §3 invariant on a jar: an entry was stored under the https
scheme exactly when its cookie carries the secure flag. -/
def SchemeSecureInv (j : Jar) : Prop :=
  ∀ e ∈ j, (e.scheme = Scheme.https ↔ e.cookie.secure = true)

theorem schemeSecureInv_setCookie (j : Jar) (c : Cookie) (s : Bool)
    (hj : SchemeSecureInv j) : SchemeSecureInv (_setCookie j c s) := by
  intro e he
  rw [setCookie_unfold] at he
  simp only [List.mem_cons] at he
  rcases he with rfl | rfl | rfl | he
  · cases s <;> simp
  · cases s <;> simp
  · cases s <;> simp
  · exact hj e (List.mem_filter.mp (List.mem_filter.mp (List.mem_filter.mp he).1).1).1

theorem mem_setCookie_domains (j : Jar) (c : Cookie) (s : Bool) :
    ∀ d ∈ cookieDomains,
      JarEntry.mk (if s then Scheme.https else Scheme.http) d { c with secure := s } ∈
        _setCookie j c s := by
  intro d hd
  rw [setCookie_unfold]
  simp only [cookieDomains, List.mem_cons, List.not_mem_nil, or_false] at hd
  rcases hd with rfl | rfl | rfl
  · exact List.mem_cons_of_mem _ (List.mem_cons_of_mem _ (List.mem_cons_self _ _))
  · exact List.mem_cons_of_mem _ (List.mem_cons_self _ _)
  · exact List.mem_cons_self _ _

/-! ### Shape lemmas for `setCookies`, `findSessionid` and `visibleEntries` -/

theorem setCookiesOne_some (st : ClientState) (cs : String) (st' : ClientState)
    (h : setCookiesOne st cs = some st') :
    ∃ n c, cookieNameOf cs = some n ∧ parseCookie cs = some c ∧
      st'.jar = _setCookie st.jar c (secureCookieName n) ∧
      st'.profileURL = st.profileURL ∧ st'.captchaGid = st.captchaGid := by
  unfold setCookiesOne at h
  rcases hn : cookieNameOf cs with _ | n
  · simp only [hn] at h
    exact Option.noConfusion h
  · simp only [hn] at h
    by_cases hl : (n == "steamLogin" || n == "steamLoginSecure") = true
    · simp only [hl, if_true] at h
      rcases hd : firstEqDigits cs.data with _ | digits
      · simp only [hd] at h
        exact Option.noConfusion h
      · simp only [hd] at h
        rcases hc : parseCookie cs with _ | c
        · simp only [hc] at h
          exact Option.noConfusion h
        · simp only [hc, Option.some.injEq] at h
          subst h
          exact ⟨n, c, rfl, rfl, rfl, rfl, rfl⟩
    · simp only [hl, Bool.false_eq_true, if_false] at h
      rcases hc : parseCookie cs with _ | c
      · simp only [hc] at h
        exact Option.noConfusion h
      · simp only [hc, Option.some.injEq] at h
        subst h
        exact ⟨n, c, rfl, rfl, rfl, rfl, rfl⟩

theorem setCookies_some (cookies : List String) (st st' : ClientState)
    (h : setCookies st cookies = some st') :
    (SchemeSecureInv st.jar → SchemeSecureInv st'.jar) ∧
      st'.profileURL = st.profileURL ∧ st'.captchaGid = st.captchaGid := by
  induction cookies generalizing st with
  | nil =>
    unfold setCookies at h
    cases h
    exact ⟨id, rfl, rfl⟩
  | cons cs rest ih =>
    unfold setCookies at h
    rcases h1 : setCookiesOne st cs with _ | st₁
    · rw [h1] at h
      cases h
    · rw [h1] at h
      obtain ⟨n, c, _, _, hjar, hp, hg⟩ := setCookiesOne_some st cs st₁ h1
      obtain ⟨hinv, hp', hg'⟩ := ih st₁ h
      refine ⟨fun hi => hinv (hjar ▸ schemeSecureInv_setCookie _ _ _ hi), ?_, ?_⟩
      · rw [hp', hp]
      · rw [hg', hg]

theorem parsePiece_of (name value : String) (h1 : '=' ∉ name.data) (h2 : name ≠ "")
    (h3 : value ≠ "") : parsePiece (name ++ "=" ++ value) = some (name, value) := by
  unfold parsePiece
  rw [splitFirstEq_append _ _ h1]
  have hn : name.isEmpty = false := by
    cases hq : name.isEmpty
    · rfl
    · exact absurd ((String.isEmpty_iff _).mp hq) h2
  have hv : value.isEmpty = false := by
    cases hq : value.isEmpty
    · rfl
    · exact absurd ((String.isEmpty_iff _).mp hq) h3
  simp [hn, hv]

/-- Well-formedness of a list of jar entries as seen by the `getSessionID`
regex: nonempty names without `=`, nonempty values. -/
def WfEntries (l : List JarEntry) : Prop :=
  ∀ e ∈ l, e.cookie.name ≠ "" ∧ '=' ∉ e.cookie.name.data ∧ e.cookie.value ≠ ""

instance (l : List JarEntry) : Decidable (WfEntries l) := by
  unfold WfEntries
  infer_instance

theorem findSessionid_none (l : List JarEntry) (hwf : WfEntries l)
    (hns : ∀ e ∈ l, e.cookie.name ≠ "sessionid") :
    findSessionid (l.map entryPiece) = Except.ok none := by
  induction l with
  | nil => rfl
  | cons e rest ih =>
    obtain ⟨h2, h1, h3⟩ := hwf e (by simp)
    have hp : parsePiece (entryPiece e) = some (e.cookie.name, e.cookie.value) :=
      parsePiece_of _ _ h1 h2 h3
    have hne : (e.cookie.name == "sessionid") = false := by
      simp only [beq_eq_false_iff_ne]
      exact hns e (by simp)
    simp only [List.map_cons, findSessionid, hp, hne, Bool.false_eq_true, if_false]
    exact ih (fun x hx => hwf x (by simp [hx])) (fun x hx => hns x (by simp [hx]))

theorem findSessionid_found (l : List JarEntry) (e : JarEntry) (hwf : WfEntries l)
    (hfind : l.find? (fun x => x.cookie.name == "sessionid") = some e) :
    findSessionid (l.map entryPiece) = Except.ok (some e.cookie.value) := by
  induction l with
  | nil => cases hfind
  | cons a rest ih =>
    obtain ⟨h2, h1, h3⟩ := hwf a (by simp)
    have hp : parsePiece (entryPiece a) = some (a.cookie.name, a.cookie.value) :=
      parsePiece_of _ _ h1 h2 h3
    by_cases ha : (a.cookie.name == "sessionid") = true
    · rw [List.find?_cons] at hfind
      simp only [ha, Option.some.injEq] at hfind
      subst hfind
      simp only [List.map_cons, findSessionid, hp, ha, if_true]
    · have ha' : (a.cookie.name == "sessionid") = false := by
        simpa using ha
      rw [List.find?_cons] at hfind
      simp only [ha'] at hfind
      simp only [List.map_cons, findSessionid, hp, ha', Bool.false_eq_true, if_false]
      exact ih (fun x hx => hwf x (by simp [hx])) hfind

theorem visibleEntries_setCookie_nonsecure (j : Jar) (c : Cookie) (hc : c.expired = false)
    (sch : Scheme) (dom : String) (hdom : dom ∈ cookieDomains) :
    ∃ rest, visibleEntries (_setCookie j c false) sch dom =
      JarEntry.mk Scheme.http dom { c with secure := false } :: rest := by
  rw [setCookie_unfold]
  simp only [cookieDomains, List.mem_cons, List.not_mem_nil, or_false] at hdom
  unfold visibleEntries
  rcases hdom with rfl | rfl | rfl
  · simp only [List.filter_cons, dom_ne_hc, dom_ne_sc, hc, Bool.false_and, Bool.and_false,
      Bool.false_eq_true, if_false, beq_self_eq_true, Bool.true_and, Bool.not_false,
      Bool.true_or, Bool.and_true, if_true]
    exact ⟨_, rfl⟩
  · simp only [List.filter_cons, dom_ne_hs, dom_ne_cs, hc, Bool.false_and, Bool.and_false,
      Bool.false_eq_true, if_false, beq_self_eq_true, Bool.true_and, Bool.not_false,
      Bool.true_or, Bool.and_true, if_true]
    exact ⟨_, rfl⟩
  · simp only [List.filter_cons, hc, beq_self_eq_true, Bool.true_and, Bool.not_false,
      Bool.true_or, Bool.and_true, if_true]
    exact ⟨_, rfl⟩

/-! ## Claim theorems -/

/-- **C2.** Every cookie written through `_setCookie` is stored (as a clone,
with its `secure` attribute forced) under all three collaborating domains,
under the https scheme iff the secure flag is true and under http otherwise;
the write preserves the jar-wide scheme/secure invariant, `setCookies`
preserves it as well, and every `setCookies` step stores its parsed cookie
under all three domains with the secure flag derived from the cookie name —
so the flag matches across the three domains. -/
theorem setCookie_replicates_three_domains (j : Jar) (c : Cookie) (s : Bool) :
    (∀ d ∈ cookieDomains,
      JarEntry.mk (if s then Scheme.https else Scheme.http) d { c with secure := s } ∈
        _setCookie j c s) ∧
    (SchemeSecureInv j → SchemeSecureInv (_setCookie j c s)) ∧
    (∀ (st st' : ClientState) (cookies : List String),
      SchemeSecureInv st.jar → setCookies st cookies = some st' → SchemeSecureInv st'.jar) ∧
    (∀ (st st' : ClientState) (cs : String), setCookiesOne st cs = some st' →
      ∃ n pc, cookieNameOf cs = some n ∧ parseCookie cs = some pc ∧
        ∀ d ∈ cookieDomains,
          JarEntry.mk (if secureCookieName n then Scheme.https else Scheme.http) d
            { pc with secure := secureCookieName n } ∈ st'.jar) := by
  refine ⟨mem_setCookie_domains j c s, schemeSecureInv_setCookie j c s, ?_, ?_⟩
  · intro st st' cookies hi h
    exact (setCookies_some cookies st st' h).1 hi
  · intro st st' cs h
    obtain ⟨n, pc, hn, hc, hjar, _, _⟩ := setCookiesOne_some st cs st' h
    exact ⟨n, pc, hn, hc, fun d hd =>
      hjar ▸ mem_setCookie_domains st.jar pc (secureCookieName n) d hd⟩

theorem setCookie_replicates_three_domains_witness :
    ("steamcommunity.com" ∈ cookieDomains) ∧
      JarEntry.mk (if true then Scheme.https else Scheme.http) "steamcommunity.com"
          { Cookie.mk "steamLoginSecure" "76561198000000000||tok" false false with secure := true } ∈
        _setCookie [] (Cookie.mk "steamLoginSecure" "76561198000000000||tok" false false) true :=
  ⟨by decide,
    (setCookie_replicates_three_domains []
        (Cookie.mk "steamLoginSecure" "76561198000000000||tok" false false) true).1
      "steamcommunity.com" (by decide)⟩

/-- **C4.** When `accountName` or `password` is missing or empty, `login`
throws the precondition error: `loginPre` ends in `.thrown` before producing
any request, and the whole `loginRun` is `.thrown` for every possible
transport outcome — never a callback (recoverable) failure. -/
theorem login_missing_credentials_throws (st : ClientState) (d : LoginDetails)
    (h : falsyStr d.accountName = true ∨ falsyStr d.password = true) :
    loginPre st d =
      .thrown "Missing either accountName or password to login; both are needed" ∧
    ∀ (rsa : Option RsaKeyBody) (dl : Option DologinBody) (pw : String) (now : Nat)
      (rb : List Nat),
      loginRun st d rsa dl pw now rb =
        .thrown "Missing either accountName or password to login; both are needed" := by
  have hc : (falsyStr d.accountName || falsyStr d.password) = true := by
    rcases h with h | h <;> simp [h]
  constructor
  · unfold loginPre
    rw [if_pos hc]
  · intro rsa dl pw now rb
    unfold loginRun loginPre
    rw [if_pos hc]

theorem login_missing_credentials_throws_witness :
    (falsyStr (LoginDetails.mk none (some "hunter2") none none none none false).accountName = true ∨
      falsyStr (LoginDetails.mk none (some "hunter2") none none none none false).password = true) ∧
    loginPre SteamCommunityInit (LoginDetails.mk none (some "hunter2") none none none none false) =
      .thrown "Missing either accountName or password to login; both are needed" :=
  ⟨Or.inl (by decide),
    (login_missing_credentials_throws SteamCommunityInit (LoginDetails.mk none (some "hunter2") none none none none false)
      (Or.inl (by decide))).1⟩

/-- **C8.** A 200 `clientjstoken` response whose body carries
`logged_in: false` makes `getClientLogonToken` return the error
`Not Logged In` to its caller and emit exactly one `sessionExpired` event
carrying that same error. -/
theorem clientLogonToken_notLoggedIn (body : ClientJsTokenBody)
    (h : body.logged_in = false) :
    getClientLogonToken none 200 body =
      (TokenResult.err "Not Logged In", [SteamEvent.sessionExpired "Not Logged In"]) ∧
    (getClientLogonToken none 200 body).2.length = 1 := by
  unfold getClientLogonToken notifySessionExpired
  simp [h]

theorem clientLogonToken_notLoggedIn_witness :
    (ClientJsTokenBody.mk false none none none).logged_in = false ∧
    getClientLogonToken none 200 (ClientJsTokenBody.mk false none none none) =
      (TokenResult.err "Not Logged In", [SteamEvent.sessionExpired "Not Logged In"]) :=
  ⟨by decide, (clientLogonToken_notLoggedIn (ClientJsTokenBody.mk false none none none) rfl).1⟩

/-- **C6** (claim refuted by the code): the eviction timer scheduled by a
fresh resolution is *not* cancelled when `login` invalidates the cache.
Concrete run: resolve at t=0ms (timer due at 60000), login-invalidate at
t=10000, resolve again at t=20000 (cache `/id/beta`, own timer due at
80000); at t=60000 the stale timer from the first resolution fires and
evicts `/id/beta` even though its own expiry is 80000 — the fresh cache
does not survive its full 60 seconds. -/
theorem profileCache_stale_timer_evicts_fresh_cache :
    myProfileCall ⟨none, []⟩ 0 (.ok 302 "https://steamcommunity.com/id/alpha") =
      (.resolved "/id/alpha", ⟨some "/id/alpha", [60000]⟩, 1) ∧
    loginInvalidate ⟨some "/id/alpha", [60000]⟩ 10000 = ⟨none, [60000]⟩ ∧
    myProfileCall ⟨none, [60000]⟩ 20000 (.ok 302 "https://steamcommunity.com/id/beta") =
      (.resolved "/id/beta", ⟨some "/id/beta", [60000, 80000]⟩, 1) ∧
    fireTimers ⟨some "/id/beta", [60000, 80000]⟩ 60000 = ⟨none, [80000]⟩ ∧
    (60000 : Nat) < 20000 + 60000 := by
  exact ⟨by decide, by decide, by decide, by decide, by decide⟩


/-- **C3.** For a well-formed cookie string `name=value` processed by
`setCookies`: when the name is not `steamLogin`/`steamLoginSecure` the write
goes through with the client identity untouched; when the name is exactly
`steamLogin` or `steamLoginSecure` and the value is digits followed by `||`,
the client's `steamID` is set to those digits; in both cases the cookie is
written secure exactly when its name starts with `steamMachineAuth` or ends
with `Secure`. -/
theorem setCookies_identity_and_secure (st : ClientState) (name value : String)
    (h1 : '=' ∉ name.data) (h2 : '=' ∉ value.data) (h3 : name ≠ "") :
    ((name == "steamLogin" || name == "steamLoginSecure") = false →
      setCookiesOne st (name ++ "=" ++ value) =
        some { st with jar := _setCookie st.jar (Cookie.mk name value false false) (secureCookieName name) }) ∧
    ((name = "steamLogin" ∨ name = "steamLoginSecure") →
      ∀ digits rest : String, digits ≠ "" → (∀ ch ∈ digits.data, isDigitChar ch = true) →
      value = digits ++ "||" ++ rest →
      setCookiesOne st (name ++ "=" ++ value) =
        some { st with steamID := some digits, jar := _setCookie st.jar (Cookie.mk name value false false) (secureCookieName name) }) ∧
    (secureCookieName name = true ↔
      (∃ r : String, name = "steamMachineAuth" ++ r) ∨
        (∃ p : String, name = p ++ "Secure")) := by
  refine ⟨?_, ?_, secureCookieName_iff name⟩
  · intro hnl
    unfold setCookiesOne
    rw [cookieNameOf_append _ _ h1 h2 h3]
    simp only [hnl, Bool.false_eq_true, if_false]
    unfold parseCookie
    rw [splitFirstEq_append _ _ h1]
  · intro hl digits rest hd0 hdd hv
    unfold setCookiesOne
    rw [cookieNameOf_append _ _ h1 h2 h3]
    have hl' : (name == "steamLogin" || name == "steamLoginSecure") = true := by
      rcases hl with rfl | rfl <;> simp
    simp only [hl', if_true]
    rw [hv, firstEqDigits_append _ _ _ h1 hdd hd0]
    unfold parseCookie
    rw [← hv, splitFirstEq_append _ _ h1]

theorem setCookies_identity_and_secure_witness :
    ('=' ∉ "steamLogin".data) ∧ ('=' ∉ "76561198000000000||token".data) ∧
    ("steamLogin" ≠ "") ∧
    setCookiesOne SteamCommunityInit ("steamLogin" ++ "=" ++ "76561198000000000||token") =
      some { SteamCommunityInit with steamID := some "76561198000000000", jar := _setCookie SteamCommunityInit.jar (Cookie.mk "steamLogin" "76561198000000000||token" false false) (secureCookieName "steamLogin") } :=
  ⟨by decide, by decide, by decide,
    (setCookies_identity_and_secure SteamCommunityInit "steamLogin" "76561198000000000||token"
        (by decide) (by decide) (by decide)).2.1 (Or.inl rfl) "76561198000000000" "token"
      (by decide) (by decide) rfl⟩

/-- **C7.** The pending CAPTCHA gid starts as the sentinel `-1` on a fresh
client; whenever the `dologin` response is classified as the CAPTCHA
challenge, the challenge URL is the render URL carrying the server's
`captcha_gid` and that gid is stored on the client instance (the
`loginRun` state update); `loginPre` carries the instance gid unchanged into
the attempt, and the `dologin` form always submits the instance gid in its
`captchagid` field. -/
theorem captchaGid_lifecycle :
    SteamCommunityInit.captchaGid = -1 ∧
    (∀ (dm : Bool) (g : Int) (b : DologinBody) (url : String),
      classifyDologin dm b = .captcha url →
      url = captchaRenderURL b.captcha_gid ∧ updateCaptchaGid g dm b = b.captcha_gid) ∧
    (∀ (st : ClientState) (d : LoginDetails) (rsa : RsaKeyBody) (b : DologinBody)
      (url encPw : String) (nowMs : Nat) (rb : List Nat),
      falsyStr d.accountName = false → falsyStr d.password = false →
      falsyStr rsa.publickey_mod = false → falsyStr rsa.publickey_exp = false →
      classifyDologin d.disableMobile b = .captcha url →
      ∃ st', loginRun st d (some rsa) (some b) encPw nowMs rb = .cbError (.captcha url) st' ∧
        st'.captchaGid = b.captcha_gid) ∧
    (∀ (st : ClientState) (d : LoginDetails) (st₁ : ClientState) (req : HttpRequest),
      loginPre st d = .request st₁ req → st₁.captchaGid = st.captchaGid) ∧
    (∀ (g : Int) (d : LoginDetails) (ts encPw : String) (nowMs : Nat),
      ("captchagid", toString g) ∈ buildDologinForm g d ts encPw nowMs) := by
  refine ⟨rfl, ?_, ?_, ?_, ?_⟩
  · intro dm g b url h
    have hurl : url = captchaRenderURL b.captcha_gid := by
      unfold classifyDologin at h
      split_ifs at h
      injection h with h₂
      exact h₂.symm
    refine ⟨hurl, ?_⟩
    unfold updateCaptchaGid
    rw [h]
  · intro st d rsa b url encPw nowMs rb ha hp hm he hc
    have hcond : (falsyStr d.accountName || falsyStr d.password) = false := by
      simp [ha, hp]
    have hcond₂ : (falsyStr rsa.publickey_mod || falsyStr rsa.publickey_exp) = false := by
      simp [hm, he]
    unfold loginRun loginPre
    simp only [hcond, Bool.false_eq_true, if_false, hcond₂, hc]
    exact ⟨_, rfl, rfl⟩
  · intro st d st₁ req h
    unfold loginPre at h
    by_cases hc : (falsyStr d.accountName || falsyStr d.password) = true
    · rw [if_pos hc] at h
      exact absurd h (by simp)
    · rw [if_neg hc] at h
      simp only [LoginPreResult.request.injEq] at h
      obtain ⟨h₁, -⟩ := h
      subst h₁
      by_cases hsg : (!falsyStr d.steamguard) = true <;>
        by_cases hdm : (!d.disableMobile) = true <;>
          simp [hsg, hdm]
  · intro g d ts encPw nowMs
    unfold buildDologinForm
    by_cases hdm : (!d.disableMobile) = true <;> simp [hdm]

/-- **C5.** `_myProfile` uses a live cached path without issuing a `/my`
request; a fresh resolution at `t₀` followed by a second call at
`t₁ < t₀ + 60000` issues exactly one request in total, while once
`t₀ + 60000 ≤ t₁` the cache is gone and any call in the cache-miss state
issues a request; on a fresh resolution a non-302 response is reported as
`HTTP error <status>` and an unmatchable `Location` header as
`Can't get profile URL`. -/
theorem myProfile_cache_contract :
    (∀ (st : ResolverState) (now : Nat) (resp : MyResponse) (p : String),
      (fireTimers st now).cache = some p →
      myProfileCall st now resp = (.usedCached p, fireTimers st now, 0)) ∧
    (∀ (t₀ t₁ : Nat) (loc p : String) (resp : MyResponse),
      profilePathMatch loc = some p → t₁ < t₀ + 60000 →
      myProfileCall ⟨none, []⟩ t₀ (.ok 302 loc) = (.resolved p, ⟨some p, [t₀ + 60000]⟩, 1) ∧
      myProfileCall ⟨some p, [t₀ + 60000]⟩ t₁ resp = (.usedCached p, ⟨some p, [t₀ + 60000]⟩, 0)) ∧
    (∀ (t₀ t₁ : Nat) (p : String), t₀ + 60000 ≤ t₁ →
      (fireTimers ⟨some p, [t₀ + 60000]⟩ t₁).cache = none) ∧
    (∀ (st : ResolverState) (now : Nat) (resp : MyResponse),
      (fireTimers st now).cache = none → (myProfileCall st now resp).2.2 = 1) ∧
    (∀ (st : ResolverState) (now status : Nat) (loc : String),
      (fireTimers st now).cache = none → status ≠ 302 →
      (myProfileCall st now (.ok status loc)).1 = .errored ("HTTP error " ++ toString status)) ∧
    (∀ (st : ResolverState) (now : Nat) (loc : String),
      (fireTimers st now).cache = none → profilePathMatch loc = none →
      (myProfileCall st now (.ok 302 loc)).1 = .errored "Can\x27t get profile URL") := by
  refine ⟨?_, ?_, ?_, ?_, ?_, ?_⟩
  · intro st now resp p h
    unfold myProfileCall
    simp only [h]
  · intro t₀ t₁ loc p resp hm hlt
    have hle : ¬ (t₀ + 60000 ≤ t₁) := by omega
    constructor
    · simp [myProfileCall, fireTimers, hm]
    · rcases resp with _ | ⟨status, loc₂⟩ <;>
        simp [myProfileCall, fireTimers, hle, List.filter_cons, hlt]
  · intro t₀ t₁ p hle
    simp [fireTimers, hle]
  · intro st now resp h
    unfold myProfileCall
    simp only [h]
    rcases resp with _ | ⟨status, loc⟩
    · rfl
    · by_cases hs : status ≠ 302
      · simp [hs]
      · simp only [hs, if_false]
        rcases hm : profilePathMatch loc with _ | p <;> simp [hm]
  · intro st now status loc h hs
    unfold myProfileCall
    simp only [h, hs]
    simp [hs]
  · intro st now loc h hm
    unfold myProfileCall
    simp only [h]
    simp [hm]

theorem myProfile_cache_contract_witness :
    (profilePathMatch "https://steamcommunity.com/id/alpha" = some "/id/alpha" ∧
      (1000 : Nat) < 0 + 60000) ∧
    myProfileCall ⟨none, []⟩ 0 (.ok 302 "https://steamcommunity.com/id/alpha") =
      (.resolved "/id/alpha", ⟨some "/id/alpha", [0 + 60000]⟩, 1) ∧
    myProfileCall ⟨some "/id/alpha", [0 + 60000]⟩ 1000 .transportFail =
      (.usedCached "/id/alpha", ⟨some "/id/alpha", [0 + 60000]⟩, 0) :=
  ⟨⟨by decide, by decide⟩,
    (myProfile_cache_contract.2.1 0 1000 "https://steamcommunity.com/id/alpha" "/id/alpha"
      .transportFail (by decide) (by decide))⟩

/-- **C1.** The `dologin` classification follows exactly the documented
priority order: failed+email-auth gives the email guard (with the email
domain), else failed+two-factor gives the mobile guard, else
failed+captcha-needed with a message matching `Please verify your humanity`
gives the CAPTCHA challenge, else any failed response is rejected with
`message || 'Unknown error'`, else a successful mobile-mode response without
an OAuth payload is `Malformed response`, else the login succeeds —
characterised as six exact if-and-only-if conditions (for bodies that carry
a `message` whenever a failed response has the captcha flag, where the code
does not crash). -/
theorem login_classification_priority (dm : Bool) (b : DologinBody)
    (hmsg : b.success = false → b.captcha_needed = true → b.message.isSome) :
    (classifyDologin dm b = .steamGuard b.emaildomain ↔
      b.success = false ∧ b.emailauth_needed = true) ∧
    (classifyDologin dm b = .steamGuardMobile ↔
      b.success = false ∧ b.emailauth_needed = false ∧ b.requires_twofactor = true) ∧
    (classifyDologin dm b = .captcha (captchaRenderURL b.captcha_gid) ↔
      b.success = false ∧ b.emailauth_needed = false ∧ b.requires_twofactor = false ∧
        b.captcha_needed = true ∧
        strHasSub (b.message.getD "") "Please verify your humanity" = true) ∧
    (classifyDologin dm b = .rejected (messageOrUnknown b.message) ↔
      b.success = false ∧ b.emailauth_needed = false ∧ b.requires_twofactor = false ∧
        ¬(b.captcha_needed = true ∧
          strHasSub (b.message.getD "") "Please verify your humanity" = true)) ∧
    (classifyDologin dm b = .malformed ↔
      b.success = true ∧ dm = false ∧ b.oauth = none) ∧
    (classifyDologin dm b = .succeeded ↔
      b.success = true ∧ (dm = true ∨ b.oauth ≠ none)) := by
  rcases b with ⟨s, e, t, c, m, dom, gid, oa⟩
  simp only at hmsg ⊢
  cases s <;> cases e <;> cases t <;> cases c <;> cases dm <;>
    rcases m with _ | m <;> rcases oa with _ | oa <;>
      first
        | (simp_all [classifyDologin, messageOrUnknown, captchaRenderURL]; done)
        | (cases hsub : strHasSub m "Please verify your humanity" <;>
            simp_all [classifyDologin, messageOrUnknown, captchaRenderURL])

theorem login_classification_priority_witness :
    ((DologinBody.mk false true false false (some "x") "gmail.com" 0 none).success = false →
      (DologinBody.mk false true false false (some "x") "gmail.com" 0 none).captcha_needed = true →
      (DologinBody.mk false true false false (some "x") "gmail.com" 0 none).message.isSome) ∧
    (classifyDologin false (DologinBody.mk false true false false (some "x") "gmail.com" 0 none) =
        .steamGuard (DologinBody.mk false true false false (some "x") "gmail.com" 0 none).emaildomain ↔
      (DologinBody.mk false true false false (some "x") "gmail.com" 0 none).success = false ∧
        (DologinBody.mk false true false false (some "x") "gmail.com" 0 none).emailauth_needed = true) :=
  ⟨by decide,
    (login_classification_priority false
        (DologinBody.mk false true false false (some "x") "gmail.com" 0 none) (by decide)).1⟩

/-- **C9** counterexample: for a host with no visible cookie at all (here
`http://example.com` on a freshly constructed client) there is no visible
`sessionid` cookie, yet `getSessionID` does not generate and return a fresh
session id — `getCookieString` yields `""`, whose single empty piece fails
the regex, and the call throws (modelled as `none`). -/
theorem getSessionID_throws_on_cookieless_host :
    getSessionID SteamCommunityInit Scheme.http "example.com"
      [0, 1, 2, 3, 4, 5, 6, 7, 8, 9, 10, 11] = none := by
  decide

/-- **C9** (amended): provided at least one cookie is visible for the host
(a collaborating domain) and all visible cookies are well-formed: if none is
named `sessionid`, `getSessionID` generates a fresh id — the hex encoding of
the 12 random bytes, exactly 24 hexadecimal characters — installs it via
`_setCookie` on all three collaborating domains and returns it, and a second
call for the same host returns the same value with the jar left unchanged;
if a `sessionid` cookie is visible, its URL-decoded value is returned and
the jar is left unchanged. -/
theorem getSessionID_idempotent_persistence (st : ClientState) (sch : Scheme) (dom : String)
    (rb : List Nat)
    (hdom : dom ∈ cookieDomains)
    (hvis : visibleEntries st.jar sch dom ≠ [])
    (hwf : WfEntries (visibleEntries st.jar sch dom))
    (hns : ∀ e ∈ visibleEntries st.jar sch dom, e.cookie.name ≠ "sessionid")
    (hlen : rb.length = 12) :
    getSessionID st sch dom rb =
      some (generateSessionID rb, { st with jar := _setCookie st.jar (Cookie.mk "sessionid" (generateSessionID rb) false false) false }) ∧
    (generateSessionID rb).length = 24 ∧
    (∀ ch ∈ (generateSessionID rb).data, (hexVal ch).isSome = true) ∧
    (∀ d ∈ cookieDomains,
      JarEntry.mk Scheme.http d (Cookie.mk "sessionid" (generateSessionID rb) false false) ∈
        _setCookie st.jar (Cookie.mk "sessionid" (generateSessionID rb) false false) false) ∧
    (∀ rb₂ : List Nat,
      getSessionID { st with jar := _setCookie st.jar (Cookie.mk "sessionid" (generateSessionID rb) false false) false } sch dom rb₂ =
        some (generateSessionID rb, { st with jar := _setCookie st.jar (Cookie.mk "sessionid" (generateSessionID rb) false false) false })) ∧
    (∀ (st₀ : ClientState) (e : JarEntry),
      WfEntries (visibleEntries st₀.jar sch dom) →
      (visibleEntries st₀.jar sch dom).find? (fun x => x.cookie.name == "sessionid") = some e →
      getSessionID st₀ sch dom rb = some (decodeURIComponent e.cookie.value, st₀)) := by
  have hrb : rb ≠ [] := by
    intro hh
    rw [hh] at hlen
    cases hlen
  have hsidne : generateSessionID rb ≠ "" := bytesToHex_ne_empty rb hrb
  refine ⟨?_, ?_, bytesToHex_chars_hex rb, ?_, ?_, ?_⟩
  · have hempty : (visibleEntries st.jar sch dom).isEmpty = false := by
      cases hq : (visibleEntries st.jar sch dom).isEmpty
      · rfl
      · exact absurd (List.isEmpty_iff.mp hq) hvis
    unfold getSessionID cookiePieces
    simp only [hempty, Bool.false_eq_true, if_false, findSessionid_none _ hwf hns]
  · rw [generateSessionID, bytesToHex_length, hlen]
  · intro d hd
    exact mem_setCookie_domains st.jar (Cookie.mk "sessionid" (generateSessionID rb) false false)
      false d hd
  · intro rb₂
    obtain ⟨rest, hre⟩ := visibleEntries_setCookie_nonsecure st.jar
      (Cookie.mk "sessionid" (generateSessionID rb) false false) rfl sch dom hdom
    have hp : parsePiece ("sessionid" ++ "=" ++ generateSessionID rb) =
        some ("sessionid", generateSessionID rb) :=
      parsePiece_of _ _ (by decide) (by decide) hsidne
    unfold getSessionID cookiePieces
    simp only [hre, List.isEmpty_cons, Bool.false_eq_true, if_false, List.map_cons]
    have hpiece : entryPiece (JarEntry.mk Scheme.http dom
        { Cookie.mk "sessionid" (generateSessionID rb) false false with secure := false }) =
        "sessionid" ++ "=" ++ generateSessionID rb := rfl
    rw [hpiece]
    simp only [findSessionid, hp, beq_self_eq_true, if_true]
    rw [show decodeURIComponent (generateSessionID rb) = generateSessionID rb from
      decode_bytesToHex rb]
  · intro st₀ e hwf₀ hfind
    have hvis₀ : visibleEntries st₀.jar sch dom ≠ [] := by
      intro hh
      rw [hh] at hfind
      cases hfind
    have hempty₀ : (visibleEntries st₀.jar sch dom).isEmpty = false := by
      cases hq : (visibleEntries st₀.jar sch dom).isEmpty
      · rfl
      · exact absurd (List.isEmpty_iff.mp hq) hvis₀
    unfold getSessionID cookiePieces
    simp only [hempty₀, Bool.false_eq_true, if_false, findSessionid_found _ _ hwf₀ hfind]

theorem getSessionID_idempotent_persistence_witness :
    ("steamcommunity.com" ∈ cookieDomains) ∧
    getSessionID SteamCommunityInit Scheme.http "steamcommunity.com"
        [0, 1, 2, 3, 4, 5, 6, 7, 8, 9, 10, 11] =
      some (generateSessionID [0, 1, 2, 3, 4, 5, 6, 7, 8, 9, 10, 11], { SteamCommunityInit with jar := _setCookie SteamCommunityInit.jar (Cookie.mk "sessionid" (generateSessionID [0, 1, 2, 3, 4, 5, 6, 7, 8, 9, 10, 11]) false false) false }) :=
  ⟨by decide,
    (getSessionID_idempotent_persistence SteamCommunityInit Scheme.http "steamcommunity.com"
        [0, 1, 2, 3, 4, 5, 6, 7, 8, 9, 10, 11] (by decide) (by decide) (by decide) (by decide)
        (by decide)).1⟩

theorem captchaGid_lifecycle_witness :
    classifyDologin false
        (DologinBody.mk false false false true (some "Please verify your humanity") "" 77 none) =
      .captcha (captchaRenderURL 77) ∧
    updateCaptchaGid 5 false
        (DologinBody.mk false false false true (some "Please verify your humanity") "" 77 none) =
      77 :=
  ⟨by decide,
    (captchaGid_lifecycle.2.1 false 5
        (DologinBody.mk false false false true (some "Please verify your humanity") "" 77 none)
        (captchaRenderURL 77) (by decide)).2⟩

theorem loginPre_request (st : ClientState) (d : LoginDetails)
    (hcred : (falsyStr d.accountName || falsyStr d.password) = false) :
    ∃ st₁ req, loginPre st d = .request st₁ req ∧ st₁.profileURL = none := by
  unfold loginPre
  rw [if_neg (by simp [hcred])]
  refine ⟨_, _, rfl, ?_⟩
  by_cases hsg : (!falsyStr d.steamguard) = true <;>
    by_cases hdm : (!d.disableMobile) = true <;> simp [hsg, hdm]

theorem loginSuccess_profileURL (st : ClientState) (d : LoginDetails) (b : DologinBody)
    (rb : List Nat) (stf : ClientState)
    (h : (loginSuccess st d b rb).finalState? = some stf) :
    stf.profileURL = st.profileURL := by
  unfold loginSuccess at h
  by_cases hdm : (!d.disableMobile) = true <;>
    simp only [hdm, Bool.false_eq_true, if_true, if_false] at h
  · rcases hoa : b.oauth with _ | o <;> simp only [hoa] at h <;>
      split at h <;>
        simp only [LoginResult.finalState?, Option.some.injEq] at h <;>
          (subst h; first | rfl | (rename_i heq; exact (setCookies_some _ _ _ heq).2.1))
  · split at h <;>
      simp only [LoginResult.finalState?, Option.some.injEq] at h <;>
        (subst h; first | rfl | (rename_i heq; exact (setCookies_some _ _ _ heq).2.1))

/-- **C10.** Every `login` call with valid credentials deletes the cached
profile URL before its first network request (`loginPre` already carries
`profileURL = none` alongside the `getrsakey` request), and whatever the
attempt's outcome — Steam Guard or CAPTCHA challenge, rejected credentials,
malformed responses, transport errors, or success — the final client state
still has no cached profile URL. -/
theorem login_clears_profile_cache (st : ClientState) (d : LoginDetails)
    (ha : falsyStr d.accountName = false) (hp : falsyStr d.password = false) :
    (∃ st₁ req, loginPre st d = .request st₁ req ∧ st₁.profileURL = none) ∧
    (∀ (rsa : Option RsaKeyBody) (dl : Option DologinBody) (pw : String) (now : Nat)
      (rb : List Nat) (stf : ClientState),
      (loginRun st d rsa dl pw now rb).finalState? = some stf → stf.profileURL = none) := by
  have hcred : (falsyStr d.accountName || falsyStr d.password) = false := by simp [ha, hp]
  obtain ⟨st₁, req, hpre, hpu⟩ := loginPre_request st d hcred
  refine ⟨⟨st₁, req, hpre, hpu⟩, ?_⟩
  intro rsa dl pw now rb stf h
  unfold loginRun at h
  rw [hpre] at h
  rcases rsa with _ | rsa
  · simp only [LoginResult.finalState?, Option.some.injEq] at h
    subst h
    exact hpu
  · by_cases hkey : (falsyStr rsa.publickey_mod || falsyStr rsa.publickey_exp) = true
    · simp only [hkey, if_true, LoginResult.finalState?, Option.some.injEq] at h
      subst h
      exact hpu
    · simp only [hkey, Bool.false_eq_true, if_false] at h
      rcases dl with _ | b
      · simp only [LoginResult.finalState?, Option.some.injEq] at h
        subst h
        exact hpu
      · rcases hcl : classifyDologin d.disableMobile b with dom₀ | _ | url | msg | _ | _ | _ | _ | _ <;>
          simp only [hcl] at h
        · simp only [LoginResult.finalState?, Option.some.injEq] at h
          subst h
          exact hpu
        · simp only [LoginResult.finalState?, Option.some.injEq] at h
          subst h
          exact hpu
        · simp only [LoginResult.finalState?, Option.some.injEq] at h
          subst h
          exact hpu
        · simp only [LoginResult.finalState?, Option.some.injEq] at h
          subst h
          exact hpu
        · simp only [LoginResult.finalState?, Option.some.injEq] at h
          subst h
          exact hpu
        · rw [loginSuccess_profileURL _ _ _ _ _ h]
          exact hpu
        · rw [loginSuccess_profileURL _ _ _ _ _ h]
          exact hpu
        · rw [loginSuccess_profileURL _ _ _ _ _ h]
          exact hpu
        · simp only [LoginResult.finalState?, Option.some.injEq] at h
          subst h
          exact hpu

theorem login_clears_profile_cache_witness :
    ∃ st₁ req,
      loginPre SteamCommunityInit
          (LoginDetails.mk (some "user") (some "pass") none none none none true) =
        .request st₁ req ∧ st₁.profileURL = none :=
  (login_clears_profile_cache SteamCommunityInit
      (LoginDetails.mk (some "user") (some "pass") none none none none true)
      (by decide) (by decide)).1

/-- **C1** counterexample: for a failed response that carries the
captcha-required flag but no `message` field, the claim's fourth case
predicts rejected-credentials with `Unknown error`, but the code evaluates
`body.message.match(/Please verify your humanity/)` on an absent message and
crashes with a `TypeError` (`jsError`), producing no callback outcome at
all. -/
theorem login_classification_crash_counterexample :
    classifyDologin false (DologinBody.mk false false false true none "" 0 none) =
      .jsError ∧
    LoginOutcome.jsError ≠
      .rejected (messageOrUnknown (DologinBody.mk false false false true none "" 0 none).message) :=
  ⟨by decide, by decide⟩

end SteamWeb
